import Mathlib

/-!
Shallow embedding of the crawl engine of YandereSpider (src/crawl.py).

The embedding models the four core pieces of crawl.py:
* `fetch_page` / `concurrent_fetch_page` (Yandere class, lines 98-184);
* `list_gt_page` (Posts, lines 225-263; the bodies of Pools.list_pools_page and
  Pools.list_posts_page are identical);
* the AllPages branch of `Posts.list` (lines 364-401), i.e. the bulk phase plus
  the sequential boundary-reconciliation loop;
* `download_file` / `concurrent_download_file` (lines 36-96).

Network and filesystem effects are modelled by explicit oracles:
* a page fetch oracle `net : Int → NetResp` giving, per page number, either a
  transport-level exception from httpx (connect error / timeout), a response
  whose body is not valid JSON, or a decoded JSON body (modelled as the list of
  item records it decodes to);
* a file download oracle `net : String → Option String` (none = the GET raised
  a transport error, some c = a response whose body c is written to disk);
* the download directory as an association list of (filename, contents).

Python exceptions are modelled with `Except`: an uncaught exception propagates
as `.error e`.  Two httpx facts are part of the embedding: `AsyncClient.get`
raises only transport-level errors (`httpx.TransportError` subclasses), and
`httpx.HTTPStatusError` is raised only by `Response.raise_for_status()`, which
crawl.py never calls — so the `except httpx.HTTPStatusError` handlers in
crawl.py can never match an exception that actually occurs.
-/

namespace Crawl

/-- Item records are uninterpreted by the crawl engine; only their multiplicity and
order matter, so an item is modelled by its API-assigned numeric id. -/
abbrev Item := Int

/-- The Python exception classes that the code under analysis can raise or
test for.  `httpStatusError` is the class named in every `except` clause of
crawl.py; `transportError` covers the `httpx.TransportError` subclasses raised
by `AsyncClient.get` (connect errors, timeouts); `jsonDecodeError` is raised by
`response.json()` on a non-JSON body; `typeError` by `result.extend(e)` when
`e` is not iterable and by `range(1, None + 1)`; `valueError` by
`asyncio.Semaphore(v)` for `v < 0` and by `int(s)` on a non-numeric string;
`indexError` by `pagination[-2]` on a list of length below two. -/
inductive PyExc where
  | httpStatusError
  | transportError
  | jsonDecodeError
  | typeError
  | valueError
  | indexError
  deriving DecidableEq, Repr

/-- The class test performed by `except httpx.HTTPStatusError`. -/
def PyExc.isHTTPStatusError : PyExc → Bool
  | .httpStatusError => true
  | _ => false

/-- Outcome of one page GET plus `response.json()`, per page number.
`body items` stands for a response whose JSON body decodes to `items`
(crawl.py's post listing bodies are JSON arrays of item objects). -/
inductive NetResp where
  | transportErr
  | badJson
  | body (items : List Item)
  deriving DecidableEq, Repr

/-- The mutable `params` request dict.  Only its `page` entry is ever read or
written by the fetch pipeline (`limit` / `tags` / `query` are constant and do
not influence control flow), so only that entry is modelled. -/
structure PDict where
  page : Int
  deriving DecidableEq, Repr

/-- `callback(content)` when a callback was supplied, else `content`
(crawl.py line 128-129). -/
def applyCallback : Option (List Item → List Item) → List Item → List Item
  | none, xs => xs
  | some f, xs => f xs

/-- Yandere.fetch_page (crawl.py lines 98-133).  The try block GETs the page
and decodes JSON; the handler catches only `httpx.HTTPStatusError` (returning
`[]` after logging), so every exception that `get`/`json` can actually raise
propagates to the caller. -/
def fetch_page (net : Int → NetResp) (page : Int)
    (cb : Option (List Item → List Item)) : Except PyExc (List Item) :=
  let tryResult : Except PyExc (List Item) :=
    match net page with
    | .transportErr => .error .transportError
    | .badJson => .error .jsonDecodeError
    | .body items => .ok (applyCallback cb items)
  match tryResult with
  | .ok v => .ok v
  | .error e => if e.isHTTPStatusError then .ok [] else .error e

/-- Python `range(s, e + 1)`, the page loop of crawl.py line 169. -/
def pyRange (s e : Int) : List Int :=
  (List.range (e + 1 - s).toNat).map (fun (i : Nat) => s + (i : Int))

/-- The merge loop of crawl.py lines 181-183: `for content in task_result:
if content: result.extend(content)`.  `task_result` is the output of
`asyncio.gather(..., return_exceptions=True)`, so entries may be exception
objects; an exception object is truthy, and `result.extend` on a non-iterable
exception raises `TypeError`, aborting the merge. -/
def mergeLoop : List (Except PyExc (List Item)) → Except PyExc (List Item)
  | [] => .ok []
  | .error _ :: _ => .error .typeError
  | .ok items :: rest =>
    if items.isEmpty then mergeLoop rest
    else
      match mergeLoop rest with
      | .ok tail => .ok (items ++ tail)
      | .error e => .error e

/-- Result of one `concurrent_fetch_page` call: its returned value (or the
exception it raises), and the `page` parameter carried by each network request
it issued, in task order. -/
structure FetchRun where
  outcome : Except PyExc (List Item)
  requestedPages : List Int
  deriving Repr

/-- Yandere.concurrent_fetch_page (crawl.py lines 135-184).

Order of effects, as in the source: `asyncio.Semaphore(concurrency)` is
constructed first and raises `ValueError` for a negative argument; then the
loop over `range(start_page, end_page + 1)` repeatedly mutates the single
shared `params` dict (`params.update({'page': page})`) and appends the
coroutine `self.fetch_page(api, headers=headers, params=params, ...)`, which
captures `params` by reference without running; the coroutines only start
executing inside `asyncio.gather`, after the loop has finished, so each task
reads the dict's final `page` value when it performs its GET.  The tasks are
modelled as the closures the loop builds (each one a function of the shared
dict), applied at gather time to the dict's final state. -/
def concurrent_fetch_page (net : Int → NetResp)
    (cb : Option (List Item → List Item)) (params0 : PDict)
    (start_page end_page : Int) (concurrency : Int) : FetchRun :=
  if concurrency < 0 then ⟨.error .valueError, []⟩
  else
    let pages := pyRange start_page end_page
    let dFinal : PDict := pages.foldl (fun d p => { d with page := p }) params0
    let tasks : List (PDict → Except PyExc (List Item)) :=
      pages.map (fun _ => (fun d => fetch_page net d.page cb))
    let taskResults := tasks.map (fun t => t dFinal)
    let requested := tasks.map (fun _ => dFinal.page)
    ⟨mergeLoop taskResults, requested⟩

/-- The HTML response seen by the page-count estimators: the HTTP status code
of the response (which crawl.py never inspects) and the list of text labels
extracted by the XPath query over the rendered pager,
`//div[@class="pagination"]/a[@aria-label]/text()` (crawl.py line 257).  HTML
parsing itself is out of scope and consumed as this capability. -/
structure HtmlResponse where
  status : Nat
  paginationLabels : List String
  deriving DecidableEq, Repr

/-- Python `pagination[-2]`: the second-to-last element, raising `IndexError`
(modelled as `none`) when the list has fewer than two elements. -/
def pyIndexNeg2 (l : List String) : Option String :=
  if l.length < 2 then none else l.get? (l.length - 2)

/-- Value of one decimal digit character. -/
def digitVal (c : Char) : Option Nat :=
  if c.isDigit then some (c.toNat - 48) else none

/-- Accumulate a decimal numeral left to right; any non-digit fails. -/
def decimalAux : List Char → Nat → Option Nat
  | [], acc => some acc
  | c :: cs, acc =>
    match digitVal c with
    | none => none
    | some d => decimalAux cs (acc * 10 + d)

/-- Python `int(s)` on the strings this code feeds it: an optional leading
minus sign followed by at least one decimal digit parses to the integer,
anything else raises `ValueError` (modelled as `none`).  Python `int` also
accepts surrounding whitespace, a leading plus sign and digit-group
underscores; none of those occur in pager labels, so they are not modelled. -/
def pyInt (s : String) : Option Int :=
  match s.data with
  | [] => none
  | '-' :: cs =>
    if cs.isEmpty then none
    else (decimalAux cs 0).map (fun m => -(m : Int))
  | cs => (decimalAux cs 0).map (fun m => (m : Int))

/-- Posts.list_gt_page (crawl.py lines 225-263).  The bodies of
Pools.list_pools_page (lines 647-682) and Pools.list_posts_page (lines
764-801) are identical apart from the request parameters, which do not enter
the parsing logic.

The input is the outcome of `self.client.get` for page 1 of the rendered
listing: `.error e` when the GET raised `e` (httpx raises only transport-level
errors here), `.ok r` when a response arrived — whatever its status code, as
crawl.py never checks it and never calls `raise_for_status`.

Inside the try block, reaching `int(pagination[-2])` can raise `IndexError`
(fewer than two labels) or `ValueError` (non-numeric label); Python `int` on a
decimal string is modelled by `pyInt`.  The handler catches only
`httpx.HTTPStatusError`, and then falls off the end of the function, returning
`None` (the `.ok none` outcome); any other exception propagates. -/
def list_gt_page (resp : Except PyExc HtmlResponse) :
    Except PyExc (Option Int) :=
  let tryResult : Except PyExc (Option Int) :=
    match resp with
    | .error e => .error e
    | .ok r =>
      let pagination := r.paginationLabels
      if pagination.isEmpty then .ok (some 1)
      else
        match pyIndexNeg2 pagination with
        | none => .error .indexError
        | some s =>
          match pyInt s with
          | none => .error .valueError
          | some n => .ok (some n)
  match tryResult with
  | .ok v => .ok v
  | .error e => if e.isHTTPStatusError then .ok none else .error e

/-- The sequential boundary-reconciliation loop of Posts.list (crawl.py lines
384-401): starting at a given page, fetch one page at a time with no callback;
a non-empty result is appended and the page number incremented; an empty
result breaks the loop; an exception from fetch_page propagates.  The result
pairs the accumulated items (or the propagated exception) with the list of
page numbers requested.  The source loop is `while True`; the embedding adds
explicit fuel, and every theorem below supplies enough fuel to reach the
terminating empty page, so the cut-off case is never exercised. -/
def seqLoop (net : Int → NetResp) : Nat → Int → Except PyExc (List Item) × List Int
  | 0, _ => (.ok [], [])
  | fuel + 1, page =>
    match fetch_page net page none with
    | .error e => (.error e, [page])
    | .ok content =>
      if content.isEmpty then (.ok [], [page])
      else
        let rest := seqLoop net fuel (page + 1)
        (match rest.1 with
         | .ok tail => .ok (content ++ tail)
         | .error e => .error e,
         page :: rest.2)

/-- The `params` dict built by Posts.list (crawl.py lines 356-360): its `page`
entry starts at 1. -/
def postsParams : PDict := ⟨1⟩

/-- Result of one AllPages Posts.list call: the returned item list (or the
exception raised), the page parameters of the bulk-phase requests, and the
page parameters of the sequential-phase requests. -/
structure ListRun where
  outcome : Except PyExc (List Item)
  bulkRequests : List Int
  seqRequests : List Int
  deriving Repr

/-- The `all_page` branch of Posts.list (crawl.py lines 364-401).
`estResp` is the estimator's GET outcome handed to list_gt_page.

Control flow as in the source: an exception from `list_gt_page` propagates; a
`None` estimate reaches `range(1, None + 1)` inside concurrent_fetch_page and
raises `TypeError` there (after the semaphore construction, which raises
`ValueError` first when the concurrency is negative); otherwise the bulk phase
runs concurrent_fetch_page over pages [1, estimate] and any exception it
raises propagates; then the sequential loop probes from estimate + 1 onward
and its items are appended after the bulk items. -/
def Posts_list_all (estResp : Except PyExc HtmlResponse) (net : Int → NetResp)
    (fuel : Nat) (concurrency : Int) : ListRun :=
  match list_gt_page estResp with
  | .error e => ⟨.error e, [], []⟩
  | .ok none =>
    ⟨.error (if concurrency < 0 then .valueError else .typeError), [], []⟩
  | .ok (some g) =>
    let bulk := concurrent_fetch_page net none postsParams 1 g concurrency
    match bulk.outcome with
    | .error e => ⟨.error e, bulk.requestedPages, []⟩
    | .ok bulkItems =>
      let seq := seqLoop net fuel (g + 1)
      ⟨(match seq.1 with
        | .ok tail => .ok (bulkItems ++ tail)
        | .error e => .error e),
       bulk.requestedPages, seq.2⟩

/-- os.path.basename for the forward-slash URLs crawl.py feeds it: the final
path component (crawl.py lines 83 and 92 derive the destination filename and
the skip-filter key from it, without decoding). -/
def basename (url : String) : String := (url.splitOn "/").getLastD ""

/-- Whether the directory listing contains a file of the given name
(Python `os.path.basename(x) in files`, crawl.py line 83). -/
def hasName (es : List (String × String)) (n : String) : Bool :=
  es.any (fun e => e.1 == n)

/-- Contents of the named file in the directory, if present. -/
def lookupName (es : List (String × String)) (n : String) : Option String :=
  (es.find? (fun e => e.1 == n)).map (fun e => e.2)

/-- The whole-file binary write of download_file (crawl.py lines 56-57):
create the file or overwrite an existing file of the same name. -/
def writeFile : List (String × String) → String → String → List (String × String)
  | [], n, c => [(n, c)]
  | e :: es, n, c => if e.1 == n then (n, c) :: es else e :: writeFile es n c

/-- Result of one concurrent_download_file call: the URL list left after the
skip filter, whether the semaphore was constructed, the returned value (or the
exception raised before any task was scheduled), the URLs actually fetched
over the network, and the directory contents after the call. -/
structure DlRun where
  filteredUrls : List String
  semaphoreCreated : Bool
  outcome : Except PyExc Unit
  requests : List String
  entries : List (String × String)
  deriving Repr

/-- The effect of one download_file task on the directory (crawl.py lines
50-59): a response (whatever its status) has its body written to the file
named by the URL's basename; a transport error leaves the directory unchanged
(the exception is not httpx.HTTPStatusError, so it propagates out of the task
and is swallowed by gather's return_exceptions=True). -/
def dlStep (net : String → Option String) (es : List (String × String))
    (u : String) : List (String × String) :=
  match net u with
  | some c => writeFile es (basename u) c
  | none => es

/-- Yandere.concurrent_download_file (crawl.py lines 61-96) together with the
per-file behaviour of download_file (lines 36-59).

`dir0` is the destination directory before the call: `none` when it does not
exist (then `os.makedirs` creates it empty and no filtering happens), `some
es` when it exists with contents `es` (then URLs whose basename is already
listed are filtered out).  If the filtered URL list is empty the call returns
before the semaphore is constructed; otherwise `asyncio.Semaphore(concurrency)`
raises `ValueError` for a negative concurrency, before any task runs.

Each scheduled download_file task GETs its URL (`net u`): a transport error
propagates out of the task — it is not `httpx.HTTPStatusError`, so the
`except` clause of download_file never matches — and is swallowed by
`asyncio.gather(..., return_exceptions=True)`, with no file written; a
response (any status, never checked) has its body written to
`directory/basename(url)`.  The writes are folded in task order; the
concurrent completion order is unspecified in the source, but every property
proved below holds for an arbitrary order. -/
def concurrent_download_file (dir0 : Option (List (String × String)))
    (urls : List String) (concurrency : Int)
    (net : String → Option String) : DlRun :=
  let files0 := dir0.getD []
  let urls1 := match dir0 with
    | none => urls
    | some es => urls.filter (fun u => !hasName es (basename u))
  if urls1.isEmpty then ⟨urls1, false, .ok (), [], files0⟩
  else if concurrency < 0 then ⟨urls1, false, .error .valueError, [], files0⟩
  else
    ⟨urls1, true, .ok (), urls1, urls1.foldl (dlStep net) files0⟩

/-! Helper definitions used to state expected values in the theorems below,
and concrete oracles used by witnesses and counterexamples. -/

/-- The consecutive page numbers `start, start + 1, ..., start + k - 1`. -/
def pageSeq (start : Int) (k : Nat) : List Int :=
  (List.range k).map (fun (i : Nat) => start + (i : Int))

/-- Concatenation, in page order, of the items of the `k` consecutive pages
starting at `start`. -/
def itemsJoin (items : Int → List Item) (start : Int) (k : Nat) : List Item :=
  ((List.range k).map (fun (i : Nat) => items (start + (i : Int)))).flatten

/-- Oracle: page `p` decodes to the single item `[p]`. -/
def netPageId : Int → NetResp := fun p => .body [p]

/-- Oracle: every page decodes to an empty item list. -/
def netEmptyPages : Int → NetResp := fun _ => .body []

/-- Oracle: the GET for page 2 raises a transport error (connection failure);
every other page decodes to the single item `[5]`. -/
def netTransportAt2 : Int → NetResp :=
  fun p => if p = 2 then .transportErr else .body [5]

/-- Oracle: the body of page 2 is not valid JSON; every other page decodes to
the single item `[5]`. -/
def netBadJsonAt2 : Int → NetResp :=
  fun p => if p = 2 then .badJson else .body [5]

/-- Concrete listing: pages up to 5 hold one item each, later pages none. -/
def itemsUpTo5 : Int → List Item := fun p => if p ≤ 5 then [p] else []

/-- Oracle serving `itemsUpTo5`. -/
def netUpTo5 : Int → NetResp := fun p => .body (itemsUpTo5 p)

/-- A rendered page-1 pager advertising pages 2 and 3 plus the trailing next
control, so the second-to-last label is "3". -/
def respPagerSmall : HtmlResponse := ⟨200, ["2", "3", "Next"]⟩

/-- A rendered page-1 pager whose second-to-last label is "1068". -/
def respPagerBig : HtmlResponse := ⟨200, ["2", "3", "1067", "1068", "Next"]⟩

/-- Download oracle: every GET returns a response with body "data". -/
def netDlOk : String → Option String := fun _ => some "data"

/-! Theorems. -/

/-- C1: the bounded page fetcher does NOT issue one request per page of the
range.  For the explicit range [1, 2] with every page p decoding to the single
item [p], both issued requests carry page parameter 2 — the loop mutates the
single shared params dict and the coroutines read it only after the loop has
finished — so the merged result is page 2's items twice, and page 1 is never
requested: the code diverges from the claim at this input (the claim predicts
requests [1, 2] and result [1, 2]). -/
theorem c1_shared_params_bug :
    concurrent_fetch_page netPageId none postsParams 1 2 8 =
      ⟨.ok [2, 2], [2, 2]⟩ := by
  rfl

/-- C3: a non-2xx outcome of the estimator's GET is not surfaced as a failure.
When the GET for the rendered listing returns an HTTP 404 response whose error
page has no pagination region, list_gt_page returns the integer estimate 1
(the code never inspects the status code), and the AllPages lister proceeds to
the bulk fetch of page 1 and the sequential probe of page 2 instead of
propagating an error — diverging from the claim that an HTTP-level estimator
failure is a hard failure with no fallback page count. -/
theorem c3_non2xx_fallback :
    list_gt_page (.ok ⟨404, []⟩) = .ok (some 1) ∧
    Posts_list_all (.ok ⟨404, []⟩) netEmptyPages 5 8 =
      ⟨.ok [], [1], [2]⟩ := by
  exact ⟨rfl, rfl⟩

/-- C6: a transport failure on a single page fetch aborts the whole batch
instead of contributing an empty list.  With range [1, 2] and a connection
error at page 2, concurrent_fetch_page raises TypeError: the error is not
caught inside fetch_page (the except clause names httpx.HTTPStatusError, which
is never raised), gather hands the exception object to the merge loop, whose
`if content` finds it truthy and whose `result.extend` cannot iterate it.
The second conjunct isolates the merge loop: even when a sibling page
succeeded with items [5], its items are lost and the call raises — diverging
from the claim that the siblings' results still appear in the final output. -/
theorem c6_transport_aborts_batch :
    concurrent_fetch_page netTransportAt2 none postsParams 1 2 8 =
      ⟨.error .typeError, [2, 2]⟩ ∧
    mergeLoop [.ok [5], .error .transportError] = .error .typeError := by
  exact ⟨rfl, rfl⟩

/-- C7: a page whose body is not valid JSON also aborts the whole batch
instead of contributing an empty list.  response.json() raises
JSONDecodeError, which the except clause (httpx.HTTPStatusError) does not
catch; gather captures it and the merge loop raises TypeError on it.  The
second conjunct shows the sibling page's items [5] are lost too — diverging
from the claim that the other pages' items still appear in the merged
result. -/
theorem c7_badjson_aborts_batch :
    concurrent_fetch_page netBadJsonAt2 none postsParams 1 2 8 =
      ⟨.error .typeError, [2, 2]⟩ ∧
    mergeLoop [.ok [5], .error .jsonDecodeError] = .error .typeError := by
  exact ⟨rfl, rfl⟩

/-- C9 counterexample: a call with start_page 2 > end_page 1 is NOT rejected
as a caller error: concurrent_fetch_page returns the normal empty success
result (no exception of any kind), having issued no request — the code
performs no validation and the page loop simply runs zero times. -/
theorem c9_counterexample :
    concurrent_fetch_page netEmptyPages none postsParams 2 1 8 =
      ⟨.ok [], []⟩ := by
  rfl

/-- C9 amended: no I/O happens under a violated precondition, but only the
negative-concurrency violation is rejected with an error (the ValueError
raised by the asyncio.Semaphore constructor, before any task is built); an
inverted range is silently accepted and returns an empty success result with
no page request issued. -/
theorem c9_amended_no_io (net : Int → NetResp)
    (cb : Option (List Item → List Item)) (params0 : PDict) (s e c : Int) :
    (c < 0 → concurrent_fetch_page net cb params0 s e c =
      ⟨.error .valueError, []⟩) ∧
    (0 ≤ c → e < s → concurrent_fetch_page net cb params0 s e c =
      ⟨.ok [], []⟩) := by
  constructor
  · intro h
    simp [concurrent_fetch_page, h]
  · intro h0 h1
    have hc : ¬ c < 0 := by omega
    have hr : pyRange s e = [] := by
      have : (e + 1 - s).toNat = 0 := Int.toNat_of_nonpos (by omega)
      simp [pyRange, this]
    simp [concurrent_fetch_page, hc, hr, mergeLoop]

/-- Witness for the amended C9 statement at concrete inputs: concurrency -1
yields the ValueError rejection, and the inverted range [2, 1] yields the
empty success. -/
theorem c9_amended_no_io_witness :
    concurrent_fetch_page netPageId none postsParams 1 2 (-1) =
      ⟨.error .valueError, []⟩ ∧
    concurrent_fetch_page netPageId none postsParams 2 1 8 =
      ⟨.ok [], []⟩ :=
  ⟨(c9_amended_no_io netPageId none postsParams 1 2 (-1)).1 (by decide),
   (c9_amended_no_io netPageId none postsParams 2 1 8).2 (by decide) (by decide)⟩

/-- C5: every successful estimator call returns 1 when the parsed pager label
list is empty, and otherwise returns the numeric value of the second-to-last
label of the list. -/
theorem c5_estimator_result (resp : Except PyExc HtmlResponse) (n : Int)
    (h : list_gt_page resp = .ok (some n)) :
    ∃ r, resp = .ok r ∧
      (r.paginationLabels.isEmpty = true → n = 1) ∧
      (r.paginationLabels.isEmpty = false →
        (pyIndexNeg2 r.paginationLabels).bind pyInt = some n) := by
  cases resp with
  | error e =>
    exfalso
    cases e <;> simp [list_gt_page, PyExc.isHTTPStatusError] at h
  | ok r =>
    refine ⟨r, rfl, ?_, ?_⟩
    · intro he
      simp [list_gt_page, he] at h
      omega
    · intro he
      cases hp : pyIndexNeg2 r.paginationLabels with
      | none =>
        exfalso
        simp [list_gt_page, he, hp, PyExc.isHTTPStatusError] at h
      | some s =>
        cases ht : pyInt s with
        | none =>
          exfalso
          simp [list_gt_page, he, hp, ht, PyExc.isHTTPStatusError] at h
        | some m =>
          simp [list_gt_page, he, hp, ht] at h
          simp [ht, h]

/-- C5 witness: for the concrete pager labels ["2", "3", "1067", "1068",
"Next"], the estimator succeeds with 1068, the numeric value of the
second-to-last label. -/
theorem c5_estimator_result_witness :
    ∃ r, (Except.ok respPagerBig : Except PyExc HtmlResponse) = .ok r ∧
      (r.paginationLabels.isEmpty = true → (1068 : Int) = 1) ∧
      (r.paginationLabels.isEmpty = false →
        (pyIndexNeg2 r.paginationLabels).bind pyInt = some 1068) :=
  c5_estimator_result (.ok respPagerBig) 1068 (by rfl)

theorem pageSeq_zero (start : Int) : pageSeq start 0 = [] := rfl

theorem pageSeq_succ (start : Int) (k : Nat) :
    pageSeq start (k + 1) = start :: pageSeq (start + 1) k := by
  unfold pageSeq
  rw [List.range_succ_eq_map, List.map_cons, List.map_map]
  congr 1
  · simp
  · apply List.map_congr_left
    intro i _
    simp only [Function.comp_apply, Nat.succ_eq_add_one]
    push_cast
    ring

theorem itemsJoin_zero (items : Int → List Item) (start : Int) :
    itemsJoin items start 0 = [] := rfl

theorem itemsJoin_succ (items : Int → List Item) (start : Int) (k : Nat) :
    itemsJoin items start (k + 1) = items start ++ itemsJoin items (start + 1) k := by
  unfold itemsJoin
  rw [List.range_succ_eq_map, List.map_cons, List.map_map, List.flatten_cons]
  congr 1
  · simp
  · congr 1
    apply List.map_congr_left
    intro i _
    simp only [Function.comp_apply, Nat.succ_eq_add_one]
    congr 1
    push_cast
    ring

theorem mem_pageSeq {p start : Int} {k : Nat} (h : p ∈ pageSeq start k) :
    ∃ i : Nat, i < k ∧ p = start + (i : Int) := by
  unfold pageSeq at h
  rw [List.mem_map] at h
  obtain ⟨i, hi, h2⟩ := h
  rw [List.mem_range] at hi
  exact ⟨i, hi, h2.symm⟩

/-- Behaviour of the sequential boundary-reconciliation loop when every fetch
succeeds: if the n pages after `start - 1` are non-empty and page `start + n`
is the first empty one, the loop returns the concatenation of the n non-empty
pages' items, requests exactly pages `start .. start + n` (the terminating
empty page is requested but contributes nothing), and stops. -/
theorem seqLoop_spec (net : Int → NetResp) (items : Int → List Item)
    (hnet : ∀ p, net p = .body (items p)) :
    ∀ (n fuel : Nat) (start : Int), n < fuel →
      (∀ i : Nat, i < n → items (start + (i : Int)) ≠ []) →
      items (start + (n : Int)) = [] →
      seqLoop net fuel start = (.ok (itemsJoin items start n), pageSeq start (n + 1)) := by
  intro n
  induction n with
  | zero =>
    intro fuel start hf _ hempty
    match fuel, hf with
    | fuel + 1, _ =>
      have hstart : items start = [] := by simpa using hempty
      simp [seqLoop, fetch_page, hnet, applyCallback, hstart, itemsJoin_zero,
        pageSeq_succ, pageSeq_zero]
  | succ n ih =>
    intro fuel start hf hne hempty
    match fuel, hf with
    | fuel + 1, hf =>
      have h0 : items start ≠ [] := by
        have := hne 0 (Nat.succ_pos n)
        simpa using this
      have hne' : ∀ i : Nat, i < n → items (start + 1 + (i : Int)) ≠ [] := by
        intro i hi
        have := hne (i + 1) (by omega)
        have hcast : start + ((i : Int) + 1) = start + 1 + (i : Int) := by ring
        push_cast at this
        rw [hcast] at this
        exact this
      have hempty' : items (start + 1 + (n : Int)) = [] := by
        have hcast : start + ((n : Int) + 1) = start + 1 + (n : Int) := by ring
        push_cast at hempty
        rw [hcast] at hempty
        exact hempty
      have hrec := ih fuel (start + 1) (by omega) hne' hempty'
      simp [seqLoop, fetch_page, hnet, applyCallback, h0, hrec,
        itemsJoin_succ, pageSeq_succ]

/-- When every entry of the gathered task list is a non-exception value, the
merge loop returns normally. -/
theorem mergeLoop_ok_of_forall :
    ∀ (l : List (Except PyExc (List Item))),
      (∀ r ∈ l, ∃ xs, r = .ok xs) → ∃ ys, mergeLoop l = .ok ys := by
  intro l
  induction l with
  | nil => intro _; exact ⟨[], rfl⟩
  | cons r rest ih =>
    intro h
    obtain ⟨xs, rfl⟩ := h r (List.mem_cons_self r rest)
    obtain ⟨ys, hys⟩ := ih (fun r hr => h r (List.mem_cons_of_mem _ hr))
    by_cases hxs : xs.isEmpty
    · exact ⟨ys, by simp [mergeLoop, hxs, hys]⟩
    · exact ⟨xs ++ ys, by simp [mergeLoop, hxs, hys]⟩

/-- When every page fetch succeeds (JSON bodies throughout) and the
concurrency is non-negative, concurrent_fetch_page returns normally. -/
theorem cfp_ok_of_body (net : Int → NetResp) (items : Int → List Item)
    (hnet : ∀ p, net p = .body (items p)) (params0 : PDict) (s e c : Int)
    (hc : 0 ≤ c) :
    ∃ b, (concurrent_fetch_page net none params0 s e c).outcome = .ok b := by
  have hcneg : ¬ c < 0 := by omega
  simp only [concurrent_fetch_page, hcneg, if_false]
  apply mergeLoop_ok_of_forall
  intro r hr
  simp only [List.map_map, List.mem_map, Function.comp] at hr
  obtain ⟨p, _, rfl⟩ := hr
  simp only [fetch_page, hnet]
  exact ⟨_, rfl⟩

/-- C2: in AllPages mode for posts, after the bulk phase over pages
[1, estimate] the lister probes strictly sequentially from estimate + 1: each
fetched page with at least one item is appended and the next page fetched; the
first page with zero items terminates the loop and is discarded (the final
result is the bulk items followed by exactly the non-empty sequential pages'
items, in page order), and no page beyond that first empty page is ever
requested. -/
theorem c2_sequential_phase (r : HtmlResponse) (g : Int) (net : Int → NetResp)
    (items : Int → List Item) (n fuel : Nat) (conc : Int)
    (hest : list_gt_page (.ok r) = .ok (some g))
    (hnet : ∀ p, net p = .body (items p))
    (hne : ∀ i : Nat, i < n → items (g + 1 + (i : Int)) ≠ [])
    (hempty : items (g + 1 + (n : Int)) = [])
    (hfuel : n < fuel) (hconc : 0 ≤ conc) :
    ∃ b, (concurrent_fetch_page net none postsParams 1 g conc).outcome = .ok b ∧
      Posts_list_all (.ok r) net fuel conc =
        ⟨.ok (b ++ itemsJoin items (g + 1) n),
         (concurrent_fetch_page net none postsParams 1 g conc).requestedPages,
         pageSeq (g + 1) (n + 1)⟩ ∧
      ∀ p ∈ pageSeq (g + 1) (n + 1), p ≤ g + 1 + (n : Int) := by
  obtain ⟨b, hb⟩ := cfp_ok_of_body net items hnet postsParams 1 g conc hconc
  have hseq := seqLoop_spec net items hnet n fuel (g + 1) hfuel hne hempty
  refine ⟨b, hb, ?_, ?_⟩
  · unfold Posts_list_all
    rw [hest]
    simp only [hb, hseq]
  · intro p hp
    obtain ⟨i, hi, rfl⟩ := mem_pageSeq hp
    omega

/-- C2 witness: with pager labels ["2", "3", "Next"] (estimate 3), pages 4
and 5 non-empty and page 6 empty, the sequential phase appends exactly pages 4
and 5 and requests pages 4, 5, 6 and nothing beyond. -/
theorem c2_sequential_phase_witness :
    ∃ b, (concurrent_fetch_page netUpTo5 none postsParams 1 3 8).outcome = .ok b ∧
      Posts_list_all (.ok respPagerSmall) netUpTo5 3 8 =
        ⟨.ok (b ++ itemsJoin itemsUpTo5 (3 + 1) 2),
         (concurrent_fetch_page netUpTo5 none postsParams 1 3 8).requestedPages,
         pageSeq (3 + 1) (2 + 1)⟩ ∧
      ∀ p ∈ pageSeq (3 + 1) (2 + 1), p ≤ 3 + 1 + ((2 : Nat) : Int) :=
  c2_sequential_phase respPagerSmall 3 netUpTo5 itemsUpTo5 2 3 8 (by rfl)
    (fun _ => rfl) (by decide) (by decide) (by decide) (by decide)

theorem writeFile_cons_pos (e : String × String) (es : List (String × String))
    (n c : String) (h : (e.1 == n) = true) :
    writeFile (e :: es) n c = (n, c) :: es := by
  simp [writeFile, h]

theorem writeFile_cons_neg (e : String × String) (es : List (String × String))
    (n c : String) (h : (e.1 == n) = false) :
    writeFile (e :: es) n c = e :: writeFile es n c := by
  simp [writeFile, h]

theorem hasName_writeFile_self (n c : String) :
    ∀ es : List (String × String), hasName (writeFile es n c) n = true := by
  intro es
  induction es with
  | nil => simp [writeFile, hasName]
  | cons e es ih =>
    by_cases he : (e.1 == n) = true
    · rw [writeFile_cons_pos e es n c he]
      simp [hasName]
    · have he' : (e.1 == n) = false := by simpa using he
      rw [writeFile_cons_neg e es n c he']
      simp only [hasName, List.any_cons, Bool.or_eq_true]
      right
      exact ih

theorem hasName_writeFile_of (m c n : String) :
    ∀ es : List (String × String), hasName es n = true →
      hasName (writeFile es m c) n = true := by
  intro es
  induction es with
  | nil => intro h; simp [hasName] at h
  | cons e es ih =>
    intro h
    simp only [hasName, List.any_cons, Bool.or_eq_true] at h
    by_cases hem : (e.1 == m) = true
    · rw [writeFile_cons_pos e es m c hem]
      have he1 : e.1 = m := by simpa using hem
      rcases h with h1 | h2
      · have : (m == n) = true := by rw [← he1]; exact h1
        simp [hasName, this]
      · simp [hasName, h2]
    · have hem' : (e.1 == m) = false := by simpa using hem
      rw [writeFile_cons_neg e es m c hem']
      simp only [hasName, List.any_cons, Bool.or_eq_true] at ih ⊢
      rcases h with h1 | h2
      · exact Or.inl h1
      · exact Or.inr (ih h2)

theorem hasName_dlStep_of (net : String → Option String) (u n : String)
    (es : List (String × String)) (h : hasName es n = true) :
    hasName (dlStep net es u) n = true := by
  unfold dlStep
  cases net u with
  | none => exact h
  | some c => exact hasName_writeFile_of (basename u) c n es h

theorem hasName_foldl_of (net : String → Option String) (n : String) :
    ∀ (l : List String) (es0 : List (String × String)),
      hasName es0 n = true →
      hasName (l.foldl (dlStep net) es0) n = true := by
  intro l
  induction l with
  | nil => intro es0 h; exact h
  | cons u l ih =>
    intro es0 h
    rw [List.foldl_cons]
    exact ih (dlStep net es0 u) (hasName_dlStep_of net u n es0 h)

theorem hasName_foldl_mem (net : String → Option String) :
    ∀ (l : List String) (es0 : List (String × String)) (u : String),
      u ∈ l → (net u).isSome = true →
      hasName (l.foldl (dlStep net) es0) (basename u) = true := by
  intro l
  induction l with
  | nil => intro es0 u h _; simp at h
  | cons v l ih =>
    intro es0 u h hnet
    rcases List.mem_cons.mp h with rfl | hmem
    · rw [List.foldl_cons]
      apply hasName_foldl_of
      unfold dlStep
      cases hv : net u with
      | none => rw [hv] at hnet; simp at hnet
      | some c => exact hasName_writeFile_self (basename u) c es0
    · rw [List.foldl_cons]
      exact ih (dlStep net es0 v) u hmem hnet

theorem lookupName_writeFile_ne (m c n : String) (h : m ≠ n) :
    ∀ es : List (String × String),
      lookupName (writeFile es m c) n = lookupName es n := by
  intro es
  have hm : (m == n) = false := by simpa using h
  induction es with
  | nil => simp [writeFile, lookupName, List.find?, hm]
  | cons e es ih =>
    by_cases hem : (e.1 == m) = true
    · rw [writeFile_cons_pos e es m c hem]
      have he1 : e.1 = m := by simpa using hem
      have hen : (e.1 == n) = false := by rw [he1]; exact hm
      simp [lookupName, List.find?, hm, hen]
    · have hem' : (e.1 == m) = false := by simpa using hem
      rw [writeFile_cons_neg e es m c hem']
      by_cases hen : (e.1 == n) = true
      · simp [lookupName, List.find?, hen]
      · have hen' : (e.1 == n) = false := by simpa using hen
        simp only [lookupName] at ih ⊢
        rw [List.find?_cons_of_neg _ (by simp [hen']),
          List.find?_cons_of_neg _ (by simp [hen'])]
        exact ih

theorem lookupName_dlStep_ne (net : String → Option String) (u n : String)
    (es : List (String × String)) (h : basename u ≠ n) :
    lookupName (dlStep net es u) n = lookupName es n := by
  unfold dlStep
  cases net u with
  | none => rfl
  | some c => exact lookupName_writeFile_ne (basename u) c n h es

theorem lookupName_foldl_ne (net : String → Option String) (n : String) :
    ∀ (l : List String) (es0 : List (String × String)),
      (∀ u ∈ l, basename u ≠ n) →
      lookupName (l.foldl (dlStep net) es0) n = lookupName es0 n := by
  intro l
  induction l with
  | nil => intro es0 _; rfl
  | cons u l ih =>
    intro es0 h
    rw [List.foldl_cons,
      ih (dlStep net es0 u) (fun v hv => h v (List.mem_cons_of_mem _ hv)),
      lookupName_dlStep_ne net u n es0 (h u (List.mem_cons_self u l))]

/-- C4: when the destination directory already exists, every URL whose
derived basename is already present in it is removed before any download is
scheduled (no network fetch for those URLs), exactly the URLs whose basenames
are absent are fetched, and an empty filtered URL set makes the call return
immediately with no semaphore created and no request issued. -/
theorem c4_skip_filter (es : List (String × String)) (urls : List String)
    (conc : Int) (net : String → Option String) (hconc : 0 ≤ conc) :
    (concurrent_download_file (some es) urls conc net).requests =
      urls.filter (fun u => !hasName es (basename u)) ∧
    (∀ u ∈ urls, hasName es (basename u) = true →
      u ∉ (concurrent_download_file (some es) urls conc net).requests) ∧
    ((concurrent_download_file (some es) urls conc net).filteredUrls = [] →
      (concurrent_download_file (some es) urls conc net).semaphoreCreated = false ∧
      (concurrent_download_file (some es) urls conc net).requests = []) := by
  have hcneg : ¬ conc < 0 := by omega
  have hnotin : ∀ u ∈ urls, hasName es (basename u) = true →
      u ∉ urls.filter (fun u => !hasName es (basename u)) := by
    intro u _ hname hmem
    rw [List.mem_filter] at hmem
    rw [hname] at hmem
    simp at hmem
  by_cases h1 : (urls.filter (fun u => !hasName es (basename u))).isEmpty = true
  · have h2 : urls.filter (fun u => !hasName es (basename u)) = [] :=
      List.isEmpty_iff.mp h1
    refine ⟨?_, ?_, ?_⟩
    · simp [concurrent_download_file, h1, h2]
    · intro u hu hname
      simp [concurrent_download_file, h1]
    · intro _
      constructor <;> simp [concurrent_download_file, h1]
  · refine ⟨?_, ?_, ?_⟩
    · simp [concurrent_download_file, h1, hcneg]
    · intro u hu hname
      have := hnotin u hu hname
      simp only [concurrent_download_file, h1, hcneg]
      simpa using this
    · intro hfil
      exfalso
      simp only [concurrent_download_file, h1, hcneg] at hfil
      rw [List.isEmpty_iff] at h1
      exact h1 (by simpa using hfil)

/-- C4 witness: with a.jpg already present, only the b.jpg URL is fetched. -/
theorem c4_skip_filter_witness :
    (concurrent_download_file (some [("a.jpg", "x")])
        ["https://f/a.jpg", "https://f/b.jpg"] 8 netDlOk).requests =
      ["https://f/a.jpg", "https://f/b.jpg"].filter
        (fun u => !hasName [("a.jpg", "x")] (basename u)) ∧
    (∀ u ∈ ["https://f/a.jpg", "https://f/b.jpg"],
      hasName [("a.jpg", "x")] (basename u) = true →
      u ∉ (concurrent_download_file (some [("a.jpg", "x")])
        ["https://f/a.jpg", "https://f/b.jpg"] 8 netDlOk).requests) ∧
    ((concurrent_download_file (some [("a.jpg", "x")])
        ["https://f/a.jpg", "https://f/b.jpg"] 8 netDlOk).filteredUrls = [] →
      (concurrent_download_file (some [("a.jpg", "x")])
        ["https://f/a.jpg", "https://f/b.jpg"] 8 netDlOk).semaphoreCreated = false ∧
      (concurrent_download_file (some [("a.jpg", "x")])
        ["https://f/a.jpg", "https://f/b.jpg"] 8 netDlOk).requests = []) :=
  c4_skip_filter [("a.jpg", "x")] ["https://f/a.jpg", "https://f/b.jpg"] 8
    netDlOk (by decide)

/-- C10: the downloader never touches a pre-existing file: every file present
in the (existing) destination directory before the call has unchanged contents
when the call returns, and no issued download targets the basename of a
pre-existing file. -/
theorem c10_frame (es : List (String × String)) (urls : List String)
    (conc : Int) (net : String → Option String) (n : String)
    (hn : hasName es n = true) :
    lookupName (concurrent_download_file (some es) urls conc net).entries n =
      lookupName es n ∧
    ∀ u ∈ (concurrent_download_file (some es) urls conc net).requests,
      hasName es (basename u) = false := by
  have hfilter : ∀ u ∈ urls.filter (fun u => !hasName es (basename u)),
      hasName es (basename u) = false := by
    intro u hu
    rw [List.mem_filter] at hu
    simpa using hu.2
  by_cases h1 : (urls.filter (fun u => !hasName es (basename u))).isEmpty = true
  · constructor
    · simp [concurrent_download_file, h1]
    · intro u hu
      simp [concurrent_download_file, h1] at hu
  · by_cases hc : conc < 0
    · constructor
      · simp [concurrent_download_file, h1, hc]
      · intro u hu
        simp [concurrent_download_file, h1, hc] at hu
    · constructor
      · simp only [concurrent_download_file, h1, hc]
        simp only [Option.getD_some, Bool.false_eq_true, if_false]
        apply lookupName_foldl_ne
        intro u hu heq
        have := hfilter u hu
        rw [heq, hn] at this
        simp at this
      · intro u hu
        simp only [concurrent_download_file, h1, hc] at hu
        exact hfilter u (by simpa using hu)

/-- C10 witness: with a.jpg present, a call over a.jpg and b.jpg URLs leaves
a.jpg's contents unchanged and targets no pre-existing basename. -/
theorem c10_frame_witness :
    lookupName (concurrent_download_file (some [("a.jpg", "x")])
        ["https://f/a.jpg", "https://f/b.jpg"] 8 netDlOk).entries "a.jpg" =
      lookupName [("a.jpg", "x")] "a.jpg" ∧
    ∀ u ∈ (concurrent_download_file (some [("a.jpg", "x")])
        ["https://f/a.jpg", "https://f/b.jpg"] 8 netDlOk).requests,
      hasName [("a.jpg", "x")] (basename u) = false :=
  c10_frame [("a.jpg", "x")] ["https://f/a.jpg", "https://f/b.jpg"] 8 netDlOk
    "a.jpg" (by decide)

/-- After a downloader call in which every GET returned a response, every URL
of the call has its basename present in the resulting directory (either it was
skipped because already present, or it was downloaded and written). -/
theorem cdf_entries_hasName (dir0 : Option (List (String × String)))
    (urls : List String) (c : Int) (net : String → Option String)
    (hc : 0 ≤ c) (hnet : ∀ u ∈ urls, (net u).isSome = true) :
    ∀ u ∈ urls,
      hasName (concurrent_download_file dir0 urls c net).entries (basename u) = true := by
  have hcneg : ¬ c < 0 := by omega
  intro u hu
  cases dir0 with
  | none =>
    by_cases h1 : urls.isEmpty = true
    · rw [List.isEmpty_iff.mp h1] at hu
      simp at hu
    · simp only [concurrent_download_file, h1, hcneg]
      simp only [Option.getD_none, Bool.false_eq_true, if_false]
      exact hasName_foldl_mem net urls [] u hu (hnet u hu)
  | some es =>
    by_cases h1 : (urls.filter (fun u => !hasName es (basename u))).isEmpty = true
    · have h2 := List.isEmpty_iff.mp h1
      rw [List.filter_eq_nil_iff] at h2
      have := h2 u hu
      simp only [concurrent_download_file, h1]
      simp only [Option.getD_some]
      simpa using this
    · simp only [concurrent_download_file, h1, hcneg]
      simp only [Option.getD_some, Bool.false_eq_true, if_false]
      by_cases hname : hasName es (basename u) = true
      · exact hasName_foldl_of net (basename u) _ es hname
      · have hname' : hasName es (basename u) = false := by
          cases hval : hasName es (basename u)
          · rfl
          · exact absurd hval hname
        have hmem : u ∈ urls.filter (fun u => !hasName es (basename u)) := by
          rw [List.mem_filter]
          exact ⟨hu, by simp [hname']⟩
        exact hasName_foldl_mem net _ es u hmem (hnet u hu)

/-- C8: running the downloader twice with the same URL set and directory
performs zero network calls on the second run, given the first run completed
with every GET returning a response: the second run's skip filter removes
every URL and the call returns before even creating a semaphore. -/
theorem c8_idempotent_second_run (dir0 : Option (List (String × String)))
    (urls : List String) (c1 c2 : Int) (net : String → Option String)
    (hc : 0 ≤ c1) (hnet : ∀ u ∈ urls, (net u).isSome = true) :
    (concurrent_download_file
      (some (concurrent_download_file dir0 urls c1 net).entries)
      urls c2 net).requests = [] ∧
    (concurrent_download_file
      (some (concurrent_download_file dir0 urls c1 net).entries)
      urls c2 net).semaphoreCreated = false := by
  have key := cdf_entries_hasName dir0 urls c1 net hc hnet
  set E := (concurrent_download_file dir0 urls c1 net).entries with hE
  have hfil : urls.filter (fun u => !hasName E (basename u)) = [] := by
    rw [List.filter_eq_nil_iff]
    intro u hu
    simp [key u hu]
  have hemp : (urls.filter (fun u => !hasName E (basename u))).isEmpty = true := by
    rw [hfil]
    rfl
  constructor <;> simp [concurrent_download_file, hemp, hfil]

/-- C8 witness: a fresh directory, two URLs, all GETs succeeding — the second
run issues no request and creates no semaphore. -/
theorem c8_idempotent_second_run_witness :
    (concurrent_download_file
      (some (concurrent_download_file none
        ["https://f/a.jpg", "https://f/b.jpg"] 8 netDlOk).entries)
      ["https://f/a.jpg", "https://f/b.jpg"] 8 netDlOk).requests = [] ∧
    (concurrent_download_file
      (some (concurrent_download_file none
        ["https://f/a.jpg", "https://f/b.jpg"] 8 netDlOk).entries)
      ["https://f/a.jpg", "https://f/b.jpg"] 8 netDlOk).semaphoreCreated = false :=
  c8_idempotent_second_run none ["https://f/a.jpg", "https://f/b.jpg"] 8 8
    netDlOk (by decide) (by decide)

end Crawl
